import Mathlib

/-!
Verification of the pan/zoom stack synchronization engine
(`PlotPanZoomStackGroup`, with its leaf component `PlotPanZoomStack`).

The group source (`PlotPanZoomStackGroup.js`) is embedded directly.  The
leaf stack file (`PlotPanZoomStack.js`) is not among the analysed sources;
its operations are modelled from the specification (§4.1) and from the way
the group source calls them.

JavaScript values handed to this engine are opaque numbers stored in
arrays and read back by index; an out-of-range array read yields
`undefined`.  We therefore model a scalar as `Option Int` (`none` is
`undefined`; no arithmetic is ever performed on the numbers, so `Int`
suffices as the carrier) and an array as a list of scalars.
-/

/-- A JavaScript value flowing through the engine: a number, or `undefined`
(modelled as `none`).  The engine performs no arithmetic on these values. -/
abbrev JSVal := Option Int

/-- A JavaScript array of values (e.g. `origin`, `dimensions`). -/
abbrev JSArr := List JSVal

/-- JavaScript array indexing `a[i]`: the element when `i` is in range,
`undefined` (`none`) otherwise. -/
def jsIndex (a : JSArr) (i : Nat) : JSVal :=
  (a.get? i).getD none

/-- One pan-zoom state: the object `{ origin: ..., dimensions: ... }`
pushed on a stack.  Index 0 of each array is the domain axis, index 1 the
range axis. -/
structure PanZoomState where
  origin : JSArr
  dimensions : JSArr
deriving DecidableEq, Repr

/-- A single pan-zoom stack: an ordered sequence of states, index 0 the
base (bottom), last element the current (top) view. -/
structure PlotPanZoomStack where
  states : List PanZoomState
deriving DecidableEq, Repr

namespace PlotPanZoomStack

/-- Modelled from the spec: the `PlotPanZoomStack` constructor (leaf file
absent from the analysed sources).  Per §4.2 each stack starts with a
single base state built from the constructor arguments; the group source
calls `new PlotPanZoomStack([], [])`. -/
def init (origin dimensions : JSArr) : PlotPanZoomStack :=
  ⟨[⟨origin, dimensions⟩]⟩

/-- Modelled from the spec: `getDepth` returns the current stack length
(§4.1). -/
def getDepth (s : PlotPanZoomStack) : Nat :=
  s.states.length

/-- The top (most recent) state.  Only meaningful on non-empty stacks; the
spec guarantees length ≥ 1 at all times, so the default is never read on
reachable states. -/
def top (s : PlotPanZoomStack) : PanZoomState :=
  s.states.getLastD ⟨[], []⟩

/-- Modelled from the spec: `getOrigin` returns the origin of the top
state (§4.1). -/
def getOrigin (s : PlotPanZoomStack) : JSArr :=
  s.top.origin

/-- Modelled from the spec: `getDimensions` returns the dimensions of the
top state (§4.1). -/
def getDimensions (s : PlotPanZoomStack) : JSArr :=
  s.top.dimensions

/-- Modelled from the spec: `pushPanZoom` appends a new state as the new
top; always succeeds (§4.1). -/
def pushPanZoom (s : PlotPanZoomStack) (origin dimensions : JSArr) : PlotPanZoomStack :=
  ⟨s.states ++ [⟨origin, dimensions⟩]⟩

/-- Modelled from the spec: `popPanZoom` removes the top state unless
depth == 1, in which case it is a no-op (§4.1). -/
def popPanZoom (s : PlotPanZoomStack) : PlotPanZoomStack :=
  if 1 < s.states.length then ⟨s.states.dropLast⟩ else s

/-- Modelled from the spec: `setBasePanZoom` replaces the state at index 0
only; all other entries are untouched (§4.1). -/
def setBasePanZoom (s : PlotPanZoomStack) (origin dimensions : JSArr) : PlotPanZoomStack :=
  ⟨match s.states with
    | [] => [⟨origin, dimensions⟩]
    | _ :: rest => ⟨origin, dimensions⟩ :: rest⟩

/-- Modelled from the spec: `clearPanZoom` truncates the stack back to
just the base state at index 0 (§4.1). -/
def clearPanZoom (s : PlotPanZoomStack) : PlotPanZoomStack :=
  ⟨s.states.take 1⟩

end PlotPanZoomStack

/-- The pan-zoom stack group: owns the `stacks` array created in the
`PlotPanZoomStackGroup` constructor.  (`decoratedStacks` carries no state
of its own: each decorated stack delegates reads to its underlying stack
and routes the four mutating operations through the group-wide functions
below, closing over its index.) -/
structure PlotPanZoomStackGroup where
  «stacks» : List PlotPanZoomStack
deriving DecidableEq, Repr

namespace PlotPanZoomStackGroup

/-- The constructor loop: `while (stacks.length < count) stacks.push(new
PlotPanZoomStack([], []))` — `count` fresh stacks, each built from two
empty arrays. -/
def init (count : Nat) : PlotPanZoomStackGroup :=
  ⟨List.replicate count (PlotPanZoomStack.init [] [])⟩

/-- Group `pushPanZoom(origin, dimensions, index)`: the stack at `index`
receives a normal push; every other stack receives a push of
`[origin[0], stack.getOrigin()[1]]` and
`[dimensions[0], stack.getDimensions()[1]]`, repeating its own current
range-axis bounds. -/
def pushPanZoom (g : PlotPanZoomStackGroup) (origin dimensions : JSArr) (index : Nat) :
    PlotPanZoomStackGroup :=
  ⟨g.stacks.mapIdx fun i stack =>
    if i = index then
      stack.pushPanZoom origin dimensions
    else
      stack.pushPanZoom
        [jsIndex origin 0, jsIndex stack.getOrigin 1]
        [jsIndex dimensions 0, jsIndex stack.getDimensions 1]⟩

/-- Group `popPanZoom()`: pop one pan-zoom state from all stacks. -/
def popPanZoom (g : PlotPanZoomStackGroup) : PlotPanZoomStackGroup :=
  ⟨g.stacks.map PlotPanZoomStack.popPanZoom⟩

/-- Group `setBasePanZoom(origin, dimensions)`: set the base state of all
stacks. -/
def setBasePanZoom (g : PlotPanZoomStackGroup) (origin dimensions : JSArr) :
    PlotPanZoomStackGroup :=
  ⟨g.stacks.map fun stack => stack.setBasePanZoom origin dimensions⟩

/-- Group `clearPanZoom()`: clear the pan-zoom state of all stacks. -/
def clearPanZoom (g : PlotPanZoomStackGroup) : PlotPanZoomStackGroup :=
  ⟨g.stacks.map PlotPanZoomStack.clearPanZoom⟩

/-- Group `getDepth()`: `stacks.length > 0 ? stacks[0].getDepth() : 0`. -/
def getDepth (g : PlotPanZoomStackGroup) : Nat :=
  match g.stacks with
  | [] => 0
  | s :: _ => s.getDepth

/-- Group `getPanZoomStack(index)`: `decoratedStacks[index]`, a plain
JavaScript array read, so any index outside `0 ≤ index < count` yields
`undefined` (`none`).  The decorated stack delegates its reads to the
underlying stack at the same position, which is what a defined result
denotes here. -/
def getPanZoomStack (g : PlotPanZoomStackGroup) (index : Int) : Option PlotPanZoomStack :=
  if index < 0 then none else g.stacks.get? index.toNat

end PlotPanZoomStackGroup

/-- One group-wide mutating operation, as issued through any decorated
stack of the group: the decorated `pushPanZoom` closes over the index of
its wrapper; the other three are index-independent. -/
inductive GroupOp where
  | push (origin dimensions : JSArr) (index : Nat)
  | pop
  | setBase (origin dimensions : JSArr)
  | clear
deriving DecidableEq, Repr

/-- Apply one group operation. -/
def PlotPanZoomStackGroup.applyOp (g : PlotPanZoomStackGroup) : GroupOp → PlotPanZoomStackGroup
  | .push origin dimensions index => g.pushPanZoom origin dimensions index
  | .pop => g.popPanZoom
  | .setBase origin dimensions => g.setBasePanZoom origin dimensions
  | .clear => g.clearPanZoom

/-- Apply a sequence of group operations, first to last. -/
def PlotPanZoomStackGroup.applyOps (g : PlotPanZoomStackGroup) (ops : List GroupOp) :
    PlotPanZoomStackGroup :=
  ops.foldl PlotPanZoomStackGroup.applyOp g

example :
    ((PlotPanZoomStackGroup.init 2).pushPanZoom [some 5, some 10] [some 1, some 1] 0).stacks =
      [⟨[⟨[], []⟩, ⟨[some 5, some 10], [some 1, some 1]⟩]⟩,
       ⟨[⟨[], []⟩, ⟨[some 5, none], [some 1, none]⟩]⟩] := by decide

example : (PlotPanZoomStackGroup.init 0).getDepth = 0 := by decide

example : (PlotPanZoomStackGroup.init 3).getPanZoomStack 3 = none := by decide

example : (PlotPanZoomStackGroup.init 3).getPanZoomStack (-1) = none := by decide

/-! Helper lemmas. -/

theorem mapIdx_get? {α β : Type} (f : Nat → α → β) (l : List α) (i : Nat) :
    (l.mapIdx f).get? i = (l.get? i).map (f i) := by
  rcases Nat.lt_or_ge i l.length with h | h
  · rw [List.get?_eq_get h, List.get?_eq_get (show i < (l.mapIdx f).length by simpa using h),
      List.get_mapIdx]
    rfl
  · rw [List.get?_eq_none.2 h, List.get?_eq_none.2 (by simpa using h)]
    rfl

namespace PlotPanZoomStack

theorem getDepth_pushPanZoom (s : PlotPanZoomStack) (o d : JSArr) :
    (s.pushPanZoom o d).getDepth = s.getDepth + 1 := by
  simp [pushPanZoom, getDepth]

theorem states_pushPanZoom (s : PlotPanZoomStack) (o d : JSArr) :
    (s.pushPanZoom o d).states = s.states ++ [⟨o, d⟩] := rfl

theorem top_pushPanZoom (s : PlotPanZoomStack) (o d : JSArr) :
    (s.pushPanZoom o d).top = ⟨o, d⟩ := by
  simp [pushPanZoom, top, List.getLastD_concat]

theorem popPanZoom_pushPanZoom (s : PlotPanZoomStack) (o d : JSArr) (h : 1 ≤ s.getDepth) :
    (s.pushPanZoom o d).popPanZoom = s := by
  unfold popPanZoom pushPanZoom
  rw [if_pos]
  · simp
  · simp only [List.length_append, List.length_cons, List.length_nil]
    simp only [getDepth] at h
    omega

theorem popPanZoom_of_depth_one (s : PlotPanZoomStack) (h : s.getDepth ≤ 1) :
    s.popPanZoom = s := by
  unfold popPanZoom
  rw [if_neg]
  simp only [getDepth] at h
  omega

theorem getDepth_popPanZoom (s : PlotPanZoomStack) :
    s.popPanZoom.getDepth = if 1 < s.getDepth then s.getDepth - 1 else s.getDepth := by
  unfold popPanZoom
  simp only [getDepth]
  split
  · simp [List.length_dropLast]
  · rfl

theorem getDepth_setBasePanZoom (s : PlotPanZoomStack) (o d : JSArr) (h : 1 ≤ s.getDepth) :
    (s.setBasePanZoom o d).getDepth = s.getDepth := by
  unfold setBasePanZoom
  cases hs : s.states with
  | nil => simp [getDepth, hs] at h
  | cons a rest => simp [getDepth, hs]

theorem states_setBasePanZoom_get? (s : PlotPanZoomStack) (o d : JSArr) :
    (s.setBasePanZoom o d).states.get? 0 = some ⟨o, d⟩ ∧
      (s.setBasePanZoom o d).states.drop 1 = s.states.drop 1 := by
  unfold setBasePanZoom
  cases s.states with
  | nil => exact ⟨rfl, rfl⟩
  | cons a rest => exact ⟨rfl, rfl⟩

theorem getDepth_clearPanZoom (s : PlotPanZoomStack) (h : 1 ≤ s.getDepth) :
    s.clearPanZoom.getDepth = 1 := by
  unfold clearPanZoom
  simp only [getDepth] at h ⊢
  rw [List.length_take]
  omega

theorem clearPanZoom_clearPanZoom (s : PlotPanZoomStack) :
    s.clearPanZoom.clearPanZoom = s.clearPanZoom := by
  unfold clearPanZoom
  simp [List.take_take]

theorem popPanZoom_iterate_eq_clearPanZoom (s : PlotPanZoomStack) (h : 1 ≤ s.getDepth) :
    PlotPanZoomStack.popPanZoom^[s.getDepth - 1] s = s.clearPanZoom := by
  simp only [getDepth] at h ⊢
  generalize hn : s.states.length = n at h ⊢
  induction n generalizing s with
  | zero => omega
  | succ m ih =>
    rcases Nat.eq_zero_or_pos m with hm | hm
    · subst hm
      simp only [Nat.add_sub_cancel, Function.iterate_zero, id]
      rcases s with ⟨states⟩
      simp only [clearPanZoom]
      simp only at hn
      rw [List.take_of_length_le (by omega)]
    · have hpop : s.popPanZoom = ⟨s.states.dropLast⟩ := by
        unfold popPanZoom
        rw [if_pos]
        omega
      have hlen : (⟨s.states.dropLast⟩ : PlotPanZoomStack).states.length = m := by
        simp [List.length_dropLast, hn]
      have hstep : m + 1 - 1 = (m - 1) + 1 := by omega
      rw [hstep, Function.iterate_succ_apply, hpop, ih ⟨s.states.dropLast⟩ hlen (by omega)]
      simp only [clearPanZoom]
      rw [List.dropLast_eq_take, List.take_take]
      congr 2
      omega

end PlotPanZoomStack

namespace PlotPanZoomStackGroup

/-- All member stacks of the group have depth `n`. -/
def DepthsAre (g : PlotPanZoomStackGroup) (n : Nat) : Prop :=
  ∀ s ∈ g.stacks, s.getDepth = n

/-- The reachable-state invariant: some common depth `n ≥ 1` is shared by
all member stacks.  (Vacuously true for the empty group.) -/
def Inv (g : PlotPanZoomStackGroup) : Prop :=
  ∃ n, 1 ≤ n ∧ g.DepthsAre n

theorem depthsAre_init (count : Nat) : (init count).DepthsAre 1 := by
  intro s hs
  rw [(List.mem_replicate.1 hs).2]
  rfl

theorem inv_init (count : Nat) : (init count).Inv :=
  ⟨1, le_refl 1, depthsAre_init count⟩

theorem applyOps_cons (g : PlotPanZoomStackGroup) (op : GroupOp) (ops : List GroupOp) :
    g.applyOps (op :: ops) = (g.applyOp op).applyOps ops := rfl

theorem length_stacks_applyOp (g : PlotPanZoomStackGroup) (op : GroupOp) :
    (g.applyOp op).stacks.length = g.stacks.length := by
  cases op <;>
    simp [applyOp, pushPanZoom, popPanZoom, setBasePanZoom, clearPanZoom]

theorem length_stacks_applyOps (g : PlotPanZoomStackGroup) (ops : List GroupOp) :
    (g.applyOps ops).stacks.length = g.stacks.length := by
  induction ops generalizing g with
  | nil => rfl
  | cons op ops ih => rw [applyOps_cons, ih, length_stacks_applyOp]

theorem depthsAre_pushPanZoom {g : PlotPanZoomStackGroup} {n : Nat} (h : g.DepthsAre n)
    (origin dimensions : JSArr) (index : Nat) :
    (g.pushPanZoom origin dimensions index).DepthsAre (n + 1) := by
  intro s' hs'
  rw [List.mem_iff_get?] at hs'
  obtain ⟨i, hi⟩ := hs'
  simp only [pushPanZoom] at hi
  rw [mapIdx_get?] at hi
  cases ha : g.stacks.get? i with
  | none => rw [ha] at hi; exact absurd hi (by simp)
  | some a =>
    rw [ha] at hi
    simp only [Option.map_some', Option.some.injEq] at hi
    have hd : a.getDepth = n := h a (List.get?_mem ha)
    rw [← hi]
    split <;> rw [PlotPanZoomStack.getDepth_pushPanZoom, hd]

theorem depthsAre_popPanZoom {g : PlotPanZoomStackGroup} {n : Nat} (h : g.DepthsAre n) :
    g.popPanZoom.DepthsAre (if 1 < n then n - 1 else n) := by
  intro s' hs'
  simp only [popPanZoom, List.mem_map] at hs'
  obtain ⟨a, ha, rfl⟩ := hs'
  rw [PlotPanZoomStack.getDepth_popPanZoom, h a ha]

theorem depthsAre_setBasePanZoom {g : PlotPanZoomStackGroup} {n : Nat} (h : g.DepthsAre n)
    (hn : 1 ≤ n) (origin dimensions : JSArr) :
    (g.setBasePanZoom origin dimensions).DepthsAre n := by
  intro s' hs'
  simp only [setBasePanZoom, List.mem_map] at hs'
  obtain ⟨a, ha, rfl⟩ := hs'
  rw [PlotPanZoomStack.getDepth_setBasePanZoom _ _ _ (by rw [h a ha]; exact hn), h a ha]

theorem depthsAre_clearPanZoom {g : PlotPanZoomStackGroup} {n : Nat} (h : g.DepthsAre n)
    (hn : 1 ≤ n) : g.clearPanZoom.DepthsAre 1 := by
  intro s' hs'
  simp only [clearPanZoom, List.mem_map] at hs'
  obtain ⟨a, ha, rfl⟩ := hs'
  exact PlotPanZoomStack.getDepth_clearPanZoom a (by rw [h a ha]; exact hn)

theorem inv_applyOp {g : PlotPanZoomStackGroup} (h : g.Inv) (op : GroupOp) :
    (g.applyOp op).Inv := by
  obtain ⟨n, hn, hd⟩ := h
  cases op with
  | push origin dimensions index =>
    exact ⟨n + 1, by omega, depthsAre_pushPanZoom hd origin dimensions index⟩
  | pop =>
    refine ⟨if 1 < n then n - 1 else n, ?_, depthsAre_popPanZoom hd⟩
    split <;> omega
  | setBase origin dimensions =>
    exact ⟨n, hn, depthsAre_setBasePanZoom hd hn origin dimensions⟩
  | clear => exact ⟨1, le_refl 1, depthsAre_clearPanZoom hd hn⟩

theorem inv_applyOps {g : PlotPanZoomStackGroup} (h : g.Inv) (ops : List GroupOp) :
    (g.applyOps ops).Inv := by
  induction ops generalizing g with
  | nil => exact h
  | cons op ops ih => rw [applyOps_cons]; exact ih (inv_applyOp h op)

theorem getDepth_of_depthsAre {g : PlotPanZoomStackGroup} {n : Nat} (h : g.DepthsAre n)
    (hne : g.stacks ≠ []) : g.getDepth = n := by
  obtain ⟨st⟩ := g
  cases st with
  | nil => exact absurd rfl hne
  | cons s rest => exact h s (by simp)

end PlotPanZoomStackGroup

/-! Claim theorems. -/

theorem list_map_id_of {α : Type} {f : α → α} {l : List α} (h : ∀ a ∈ l, f a = a) :
    l.map f = l := by
  induction l with
  | nil => rfl
  | cons a t ih =>
    rw [List.map_cons, h a (by simp), ih fun b hb => h b (by simp [hb])]

/-- C1: for a group with `count ≥ 1` and a wrapper index `0 ≤ i < count`,
`pushPanZoom(origin, dimensions)` through wrapper `i` pushes exactly
`(origin, dimensions)` as the new top of stack `i`, and on every other
stack `j ≠ i` pushes a new top whose domain-axis origin and dimension are
`origin[0]` and `dimensions[0]` and whose range-axis origin and dimension
are stack `j`'s own top values read immediately before the push; every
stack keeps its previous entries below the new top and its depth grows by
exactly one. -/
theorem group_pushPanZoom_domain_sync (g : PlotPanZoomStackGroup)
    (origin dimensions : JSArr) (i j : Nat) (hi : i < g.stacks.length)
    (sj sj' : PlotPanZoomStack)
    (hj : g.stacks.get? j = some sj)
    (hj' : (g.pushPanZoom origin dimensions i).stacks.get? j = some sj') :
    sj'.getDepth = sj.getDepth + 1 ∧
    sj'.states.dropLast = sj.states ∧
    (j = i → sj'.top = ⟨origin, dimensions⟩) ∧
    (j ≠ i →
      jsIndex sj'.top.origin 0 = jsIndex origin 0 ∧
      jsIndex sj'.top.dimensions 0 = jsIndex dimensions 0 ∧
      jsIndex sj'.top.origin 1 = jsIndex sj.getOrigin 1 ∧
      jsIndex sj'.top.dimensions 1 = jsIndex sj.getDimensions 1) := by
  simp only [PlotPanZoomStackGroup.pushPanZoom] at hj'
  rw [mapIdx_get?, hj] at hj'
  simp only [Option.map_some', Option.some.injEq] at hj'
  subst hj'
  by_cases hji : j = i
  · rw [if_pos hji]
    refine ⟨PlotPanZoomStack.getDepth_pushPanZoom sj origin dimensions, ?_, ?_, ?_⟩
    · rw [PlotPanZoomStack.states_pushPanZoom, List.dropLast_concat]
    · intro _
      exact PlotPanZoomStack.top_pushPanZoom sj origin dimensions
    · intro hne
      exact absurd hji hne
  · rw [if_neg hji]
    refine ⟨PlotPanZoomStack.getDepth_pushPanZoom sj _ _, ?_, ?_, ?_⟩
    · rw [PlotPanZoomStack.states_pushPanZoom, List.dropLast_concat]
    · intro heq
      exact absurd heq hji
    · intro _
      rw [PlotPanZoomStack.top_pushPanZoom]
      exact ⟨rfl, rfl, rfl, rfl⟩

/-- Concrete run of the C1 theorem: group of size 2, push
`([5, 10], [1, 1])` through wrapper 0, observe stack 1. -/
theorem group_pushPanZoom_domain_sync_witness :
    (PlotPanZoomStack.mk [⟨[], []⟩, ⟨[some 5, none], [some 1, none]⟩]).getDepth =
        (PlotPanZoomStack.mk [⟨[], []⟩]).getDepth + 1 ∧
    (PlotPanZoomStack.mk [⟨[], []⟩, ⟨[some 5, none], [some 1, none]⟩]).states.dropLast =
        (PlotPanZoomStack.mk [⟨[], []⟩]).states ∧
    ((1 : Nat) = 0 →
      (PlotPanZoomStack.mk [⟨[], []⟩, ⟨[some 5, none], [some 1, none]⟩]).top =
        ⟨[some 5, some 10], [some 1, some 1]⟩) ∧
    ((1 : Nat) ≠ 0 →
      jsIndex (PlotPanZoomStack.mk
          [⟨[], []⟩, ⟨[some 5, none], [some 1, none]⟩]).top.origin 0 =
        jsIndex [some 5, some 10] 0 ∧
      jsIndex (PlotPanZoomStack.mk
          [⟨[], []⟩, ⟨[some 5, none], [some 1, none]⟩]).top.dimensions 0 =
        jsIndex [some 1, some 1] 0 ∧
      jsIndex (PlotPanZoomStack.mk
          [⟨[], []⟩, ⟨[some 5, none], [some 1, none]⟩]).top.origin 1 =
        jsIndex (PlotPanZoomStack.mk [⟨[], []⟩]).getOrigin 1 ∧
      jsIndex (PlotPanZoomStack.mk
          [⟨[], []⟩, ⟨[some 5, none], [some 1, none]⟩]).top.dimensions 1 =
        jsIndex (PlotPanZoomStack.mk [⟨[], []⟩]).getDimensions 1) :=
  group_pushPanZoom_domain_sync (PlotPanZoomStackGroup.init 2)
    [some 5, some 10] [some 1, some 1] 0 1 (by decide)
    ⟨[⟨[], []⟩]⟩ ⟨[⟨[], []⟩, ⟨[some 5, none], [some 1, none]⟩]⟩ (by decide) (by decide)

/-- C2: starting from any group of size ≥ 2, after any sequence of group
operations all member stacks report identical `getDepth`, and a further
group `pushPanZoom` through any wrapper increases the depth of every stack
by exactly one. -/
theorem group_ops_equal_depth (count : Nat) (hc : 2 ≤ count) (ops : List GroupOp)
    (origin dimensions : JSArr) (index : Nat) :
    (∀ s ∈ ((PlotPanZoomStackGroup.init count).applyOps ops).stacks,
        ∀ t ∈ ((PlotPanZoomStackGroup.init count).applyOps ops).stacks,
          s.getDepth = t.getDepth) ∧
    (∀ k sk sk',
        ((PlotPanZoomStackGroup.init count).applyOps ops).stacks.get? k = some sk →
        (((PlotPanZoomStackGroup.init count).applyOps ops).pushPanZoom origin dimensions
            index).stacks.get? k = some sk' →
        sk'.getDepth = sk.getDepth + 1) := by
  constructor
  · obtain ⟨n, _, hd⟩ := PlotPanZoomStackGroup.inv_applyOps
      (PlotPanZoomStackGroup.inv_init count) ops
    intro s hs t ht
    rw [hd s hs, hd t ht]
  · intro k sk sk' hk hk'
    simp only [PlotPanZoomStackGroup.pushPanZoom] at hk'
    rw [mapIdx_get?, hk] at hk'
    simp only [Option.map_some', Option.some.injEq] at hk'
    subst hk'
    split <;> rw [PlotPanZoomStack.getDepth_pushPanZoom]

/-- Concrete run of the C2 theorem: size-2 group after one push holds two
distinct stacks of equal depth, and a second push through the other
wrapper takes stack 0 from depth 2 to depth 3. -/
theorem group_ops_equal_depth_witness :
    (PlotPanZoomStack.mk [⟨[], []⟩, ⟨[some 5, some 10], [some 1, some 1]⟩]).getDepth =
      (PlotPanZoomStack.mk [⟨[], []⟩, ⟨[some 5, none], [some 1, none]⟩]).getDepth ∧
    (PlotPanZoomStack.mk [⟨[], []⟩, ⟨[some 5, some 10], [some 1, some 1]⟩,
        ⟨[some 7, some 10], [some 2, some 1]⟩]).getDepth =
      (PlotPanZoomStack.mk [⟨[], []⟩, ⟨[some 5, some 10], [some 1, some 1]⟩]).getDepth + 1 := by
  have h := group_ops_equal_depth 2 (by decide)
    [GroupOp.push [some 5, some 10] [some 1, some 1] 0] [some 7, some 8] [some 2, some 3] 1
  exact ⟨h.1 _ (by decide) _ (by decide), h.2 0 _ _ (by decide) (by decide)⟩

/-- C3: on any stack of depth ≥ 1 (every stack is constructed that way),
any number of pops keeps `getDepth ≥ 1`; a pop at depth 1 leaves the stack
unchanged; and a group-wide pop on a group whose stacks are all at depth 1
is a no-op for the whole group. -/
theorem pop_floor_invariant (s : PlotPanZoomStack) (h : 1 ≤ s.getDepth) (m : Nat)
    (g : PlotPanZoomStackGroup) (hg : ∀ t ∈ g.stacks, t.getDepth = 1) :
    1 ≤ (PlotPanZoomStack.popPanZoom^[m] s).getDepth ∧
    (s.getDepth = 1 → s.popPanZoom = s) ∧
    g.popPanZoom = g := by
  refine ⟨?_, ?_, ?_⟩
  · induction m generalizing s with
    | zero => exact h
    | succ k ih =>
      rw [Function.iterate_succ_apply]
      refine ih s.popPanZoom ?_
      rw [PlotPanZoomStack.getDepth_popPanZoom]
      split <;> omega
  · intro h1
    exact PlotPanZoomStack.popPanZoom_of_depth_one s (le_of_eq h1)
  · obtain ⟨st⟩ := g
    simp only [PlotPanZoomStackGroup.popPanZoom, PlotPanZoomStackGroup.mk.injEq]
    exact list_map_id_of fun t ht =>
      PlotPanZoomStack.popPanZoom_of_depth_one t (le_of_eq (hg t ht))

/-- Concrete run of the C3 theorem: five pops on a depth-1 stack, and a
group-wide pop on a size-2 group at depth 1. -/
theorem pop_floor_invariant_witness :
    1 ≤ (PlotPanZoomStack.popPanZoom^[5] (PlotPanZoomStack.mk [⟨[], []⟩])).getDepth ∧
    ((PlotPanZoomStack.mk [⟨[], []⟩]).getDepth = 1 →
      (PlotPanZoomStack.mk [⟨[], []⟩]).popPanZoom = PlotPanZoomStack.mk [⟨[], []⟩]) ∧
    (PlotPanZoomStackGroup.init 2).popPanZoom = PlotPanZoomStackGroup.init 2 :=
  pop_floor_invariant ⟨[⟨[], []⟩]⟩ (by decide) 5 (PlotPanZoomStackGroup.init 2) (by decide)

/-- C4: on a group constructed with any `count` (and after any sequence of
group operations, which never changes the number of stacks), requesting
`getPanZoomStack(index)` for any index outside `0 ≤ index < count` —
including every index when `count = 0` — yields no wrapper (`undefined`,
modelled as `none`): the out-of-bounds access is signalled, never clamped
to a default wrapper. -/
theorem getPanZoomStack_out_of_range (count : Nat) (ops : List GroupOp) (index : Int)
    (h : ¬ (0 ≤ index ∧ index < (count : Int))) :
    ((PlotPanZoomStackGroup.init count).applyOps ops).getPanZoomStack index = none := by
  unfold PlotPanZoomStackGroup.getPanZoomStack
  by_cases hneg : index < 0
  · rw [if_pos hneg]
  · rw [if_neg hneg, List.get?_eq_none, PlotPanZoomStackGroup.length_stacks_applyOps]
    simp only [PlotPanZoomStackGroup.init, List.length_replicate]
    push_neg at h
    have := h (by omega)
    omega

/-- Concrete run of the C4 theorem: index 0 on the empty group, and index
2 and -1 on a two-stack group, all yield no wrapper. -/
theorem getPanZoomStack_out_of_range_witness :
    ((PlotPanZoomStackGroup.init 0).applyOps []).getPanZoomStack 0 = none ∧
    ((PlotPanZoomStackGroup.init 2).applyOps []).getPanZoomStack 2 = none ∧
    ((PlotPanZoomStackGroup.init 2).applyOps []).getPanZoomStack (-1) = none :=
  ⟨getPanZoomStack_out_of_range 0 [] 0 (by decide),
   getPanZoomStack_out_of_range 2 [] 2 (by decide),
   getPanZoomStack_out_of_range 2 [] (-1) (by decide)⟩

/-- C5 counterexample: the group constructor passes two empty arrays to
each fresh stack (`new PlotPanZoomStack([], [])`), so immediately after
construction a wrapper's `getOrigin()` returns the empty array, not
`[0, 0]`: the claim fails on the group built with `count = 1`. -/
theorem init_zero_base_counterexample :
    ((PlotPanZoomStackGroup.init 1).stacks.get? 0).map PlotPanZoomStack.getOrigin =
      some [] ∧
    some ([] : JSArr) ≠ some [some 0, some 0] := by
  exact ⟨by decide, by decide⟩

/-- C5 (amended): for every group constructed with `count ≥ 1`, each of
the `count` stacks is initialized with a single base state whose origin
and dimensions are both the empty array (so each wrapper's `getOrigin()`
and `getDimensions()` return `[]` and `getDepth()` returns 1 immediately
after construction). -/
theorem init_base_empty_arrays (count : Nat) (hc : 1 ≤ count) (i : Nat) (hi : i < count) :
    (PlotPanZoomStackGroup.init count).stacks.get? i =
      some (PlotPanZoomStack.init [] []) ∧
    ((PlotPanZoomStackGroup.init count).stacks.get? i).map PlotPanZoomStack.getDepth =
      some 1 ∧
    ((PlotPanZoomStackGroup.init count).stacks.get? i).map PlotPanZoomStack.getOrigin =
      some [] ∧
    ((PlotPanZoomStackGroup.init count).stacks.get? i).map PlotPanZoomStack.getDimensions =
      some [] := by
  have hget : (PlotPanZoomStackGroup.init count).stacks.get? i =
      some (PlotPanZoomStack.init [] []) := by
    simp only [PlotPanZoomStackGroup.init]
    rw [List.get?_eq_get (by simpa using hi), List.get_replicate]
  refine ⟨hget, ?_, ?_, ?_⟩ <;> rw [hget] <;> rfl

/-- Concrete run of the amended C5 theorem at `count = 1`, `i = 0`. -/
theorem init_base_empty_arrays_witness :
    (PlotPanZoomStackGroup.init 1).stacks.get? 0 =
      some (PlotPanZoomStack.init [] []) ∧
    ((PlotPanZoomStackGroup.init 1).stacks.get? 0).map PlotPanZoomStack.getDepth =
      some 1 ∧
    ((PlotPanZoomStackGroup.init 1).stacks.get? 0).map PlotPanZoomStack.getOrigin =
      some [] ∧
    ((PlotPanZoomStackGroup.init 1).stacks.get? 0).map PlotPanZoomStack.getDimensions =
      some [] :=
  init_base_empty_arrays 1 (by decide) 0 (by decide)

/-- C6: group `setBasePanZoom(origin, dimensions)` writes the very pair
`(origin, dimensions)` — not split into domain/range components — as the
new index-0 state of every member stack, and every entry above index 0 is
left untouched. -/
theorem setBasePanZoom_base_only (g : PlotPanZoomStackGroup) (origin dimensions : JSArr)
    (i : Nat) (si si' : PlotPanZoomStack)
    (hi : g.stacks.get? i = some si)
    (hi' : (g.setBasePanZoom origin dimensions).stacks.get? i = some si') :
    si'.states.get? 0 = some ⟨origin, dimensions⟩ ∧
    si'.states.drop 1 = si.states.drop 1 := by
  simp only [PlotPanZoomStackGroup.setBasePanZoom] at hi'
  rw [List.get?_map, hi] at hi'
  simp only [Option.map_some', Option.some.injEq] at hi'
  subst hi'
  exact PlotPanZoomStack.states_setBasePanZoom_get? si origin dimensions

/-- Concrete run of the C6 theorem: one stack of depth 2; the new base is
written whole and the pushed entry above it is untouched. -/
theorem setBasePanZoom_base_only_witness :
    (PlotPanZoomStack.mk
        [⟨[some 9], [some 8]⟩, ⟨[some 1], [some 2]⟩]).states.get? 0 =
      some ⟨[some 9], [some 8]⟩ ∧
    (PlotPanZoomStack.mk
        [⟨[some 9], [some 8]⟩, ⟨[some 1], [some 2]⟩]).states.drop 1 =
      (PlotPanZoomStack.mk [⟨[], []⟩, ⟨[some 1], [some 2]⟩]).states.drop 1 :=
  setBasePanZoom_base_only
    ⟨[⟨[⟨[], []⟩, ⟨[some 1], [some 2]⟩]⟩]⟩ [some 9] [some 8] 0
    ⟨[⟨[], []⟩, ⟨[some 1], [some 2]⟩]⟩
    ⟨[⟨[some 9], [some 8]⟩, ⟨[some 1], [some 2]⟩]⟩ (by decide) (by decide)

/-- C7: on any group whose stacks all have depth ≥ 1 (in particular any
group whose stacks share a common depth `d ≥ 1`), a group `pushPanZoom`
through any wrapper followed by one group `popPanZoom` restores the whole
group exactly: every stack returns to its prior depth with its prior top
origin and dimensions. -/
theorem push_then_pop_roundtrip (g : PlotPanZoomStackGroup)
    (h : ∀ s ∈ g.stacks, 1 ≤ s.getDepth) (origin dimensions : JSArr) (index : Nat) :
    (g.pushPanZoom origin dimensions index).popPanZoom = g := by
  obtain ⟨st⟩ := g
  simp only [PlotPanZoomStackGroup.pushPanZoom, PlotPanZoomStackGroup.popPanZoom,
    PlotPanZoomStackGroup.mk.injEq]
  apply List.ext
  intro n
  rw [List.get?_map, mapIdx_get?]
  cases ha : st.get? n with
  | none => rfl
  | some a =>
    simp only [Option.map_some']
    have h1 : 1 ≤ a.getDepth := h a (List.get?_mem ha)
    congr 1
    split <;> exact PlotPanZoomStack.popPanZoom_pushPanZoom a _ _ h1

/-- Concrete run of the C7 theorem: push then pop on a size-3 group that
already carries one pushed state returns it to that state. -/
theorem push_then_pop_roundtrip_witness :
    (((PlotPanZoomStackGroup.init 3).applyOps
          [GroupOp.push [some 5, some 10] [some 1, some 1] 0]).pushPanZoom
        [some 7, some 8] [some 2, some 3] 1).popPanZoom =
      (PlotPanZoomStackGroup.init 3).applyOps
        [GroupOp.push [some 5, some 10] [some 1, some 1] 0] :=
  push_then_pop_roundtrip
    ((PlotPanZoomStackGroup.init 3).applyOps
      [GroupOp.push [some 5, some 10] [some 1, some 1] 0])
    (by decide) [some 7, some 8] [some 2, some 3] 1

/-- C8: group `clearPanZoom` is idempotent — clearing twice equals
clearing once — and on every member stack (of depth ≥ 1) clearing
truncates to exactly the base state: depth becomes 1, the index-0 entry is
unchanged, and the result coincides with repeating `popPanZoom` until
depth 1. -/
theorem clearPanZoom_idempotent (g : PlotPanZoomStackGroup)
    (h : ∀ s ∈ g.stacks, 1 ≤ s.getDepth) :
    g.clearPanZoom.clearPanZoom = g.clearPanZoom ∧
    (∀ s ∈ g.stacks,
      s.clearPanZoom.getDepth = 1 ∧
      s.clearPanZoom.states.get? 0 = s.states.get? 0 ∧
      PlotPanZoomStack.popPanZoom^[s.getDepth - 1] s = s.clearPanZoom) := by
  constructor
  · obtain ⟨st⟩ := g
    simp only [PlotPanZoomStackGroup.clearPanZoom, List.map_map,
      PlotPanZoomStackGroup.mk.injEq]
    exact List.map_congr_left fun s _ => PlotPanZoomStack.clearPanZoom_clearPanZoom s
  · intro s hs
    refine ⟨PlotPanZoomStack.getDepth_clearPanZoom s (h s hs), ?_,
      PlotPanZoomStack.popPanZoom_iterate_eq_clearPanZoom s (h s hs)⟩
    simp only [PlotPanZoomStack.clearPanZoom]
    exact List.get?_take (by omega)

/-- Concrete run of the C8 theorem on a size-2 group carrying two pushed
states. -/
theorem clearPanZoom_idempotent_witness :
    (((PlotPanZoomStackGroup.init 2).applyOps
          [GroupOp.push [some 5, some 10] [some 1, some 1] 0,
           GroupOp.push [some 7, some 8] [some 2, some 3] 1]).clearPanZoom).clearPanZoom =
      ((PlotPanZoomStackGroup.init 2).applyOps
          [GroupOp.push [some 5, some 10] [some 1, some 1] 0,
           GroupOp.push [some 7, some 8] [some 2, some 3] 1]).clearPanZoom ∧
    (PlotPanZoomStack.mk [⟨[], []⟩, ⟨[some 5, some 10], [some 1, some 1]⟩,
        ⟨[some 7, some 10], [some 2, some 1]⟩]).clearPanZoom.getDepth = 1 := by
  have hw := clearPanZoom_idempotent
    ((PlotPanZoomStackGroup.init 2).applyOps
      [GroupOp.push [some 5, some 10] [some 1, some 1] 0,
       GroupOp.push [some 7, some 8] [some 2, some 3] 1]) (by decide)
  exact ⟨hw.1, (hw.2 _ (by decide)).1⟩

/-- C9: after any sequence of group operations, `getDepth()` returns 0 for
a group constructed with `count = 0`, and for `count ≥ 1` it returns the
common depth (an integer ≥ 1) shared by every member stack. -/
theorem group_getDepth_spec (count : Nat) (ops : List GroupOp) :
    (count = 0 → ((PlotPanZoomStackGroup.init count).applyOps ops).getDepth = 0) ∧
    (1 ≤ count →
      1 ≤ ((PlotPanZoomStackGroup.init count).applyOps ops).getDepth ∧
      ∀ s ∈ ((PlotPanZoomStackGroup.init count).applyOps ops).stacks,
        s.getDepth = ((PlotPanZoomStackGroup.init count).applyOps ops).getDepth) := by
  have hlen : ((PlotPanZoomStackGroup.init count).applyOps ops).stacks.length = count := by
    rw [PlotPanZoomStackGroup.length_stacks_applyOps]
    simp [PlotPanZoomStackGroup.init]
  constructor
  · intro hc
    have hnil : ((PlotPanZoomStackGroup.init count).applyOps ops).stacks = [] :=
      List.length_eq_zero.1 (by omega)
    simp only [PlotPanZoomStackGroup.getDepth, hnil]
  · intro hc
    obtain ⟨n, hn, hd⟩ := PlotPanZoomStackGroup.inv_applyOps
      (PlotPanZoomStackGroup.inv_init count) ops
    have hne : ((PlotPanZoomStackGroup.init count).applyOps ops).stacks ≠ [] := by
      intro hnil
      rw [hnil] at hlen
      simp at hlen
      omega
    have hgd : ((PlotPanZoomStackGroup.init count).applyOps ops).getDepth = n :=
      PlotPanZoomStackGroup.getDepth_of_depthsAre hd hne
    rw [hgd]
    exact ⟨hn, fun s hs => hd s hs⟩

/-- Concrete run of the C9 theorem: the empty group reports depth 0; a
size-2 group after one push reports depth 2, matched by both stacks. -/
theorem group_getDepth_spec_witness :
    ((PlotPanZoomStackGroup.init 0).applyOps []).getDepth = 0 ∧
    1 ≤ ((PlotPanZoomStackGroup.init 2).applyOps
        [GroupOp.push [some 5, some 10] [some 1, some 1] 0]).getDepth :=
  ⟨(group_getDepth_spec 0 []).1 rfl,
   ((group_getDepth_spec 2
      [GroupOp.push [some 5, some 10] [some 1, some 1] 0]).2 (by decide)).1⟩

/-- C10: on the group constructed with `count = 0` (which no sequence of
group operations can change), `popPanZoom`, `setBasePanZoom`, and
`clearPanZoom` all complete and leave the group unchanged, and
`getDepth()` still returns 0. -/
theorem empty_group_ops_noop (ops : List GroupOp) (origin dimensions : JSArr) :
    (PlotPanZoomStackGroup.init 0).applyOps ops = PlotPanZoomStackGroup.init 0 ∧
    (PlotPanZoomStackGroup.init 0).popPanZoom = PlotPanZoomStackGroup.init 0 ∧
    (PlotPanZoomStackGroup.init 0).setBasePanZoom origin dimensions =
      PlotPanZoomStackGroup.init 0 ∧
    (PlotPanZoomStackGroup.init 0).clearPanZoom = PlotPanZoomStackGroup.init 0 ∧
    (PlotPanZoomStackGroup.init 0).getDepth = 0 := by
  refine ⟨?_, rfl, rfl, rfl, rfl⟩
  induction ops with
  | nil => rfl
  | cons op rest ih =>
    rw [PlotPanZoomStackGroup.applyOps_cons]
    have hop : (PlotPanZoomStackGroup.init 0).applyOp op = PlotPanZoomStackGroup.init 0 := by
      cases op <;> rfl
    rw [hop]
    exact ih
